import Mathlib

/-!
Verification development for the boilerr operator's resolution-and-synthesis
core (Go sources under `internal/config`, `internal/resources`,
`internal/controller` and `api/v1alpha1`).

Go maps are embedded as association lists with `Nodup` keys where a theorem
needs map semantics; Go `error` returns become `Option`/`Except` values;
pointer-typed optional fields become `Option`.
-/

/-- Embeds `corev1.SecretKeySelector` (only the fields the repository reads:
the secret object name and the key inside it). -/
structure SecretKeySelector where
  name : String
  key : String
deriving DecidableEq, Repr

/-- Embeds `api/v1alpha1.ConfigValue`: a literal string value and an optional
secret reference. -/
structure ConfigValue where
  value : String
  secretKeyRef : Option SecretKeySelector
deriving DecidableEq, Repr

/-- Embeds `api/v1alpha1.ConfigSchemaEntry` (the fields read by
`internal/config`: `Default`, `Required`, `Enum`). -/
structure ConfigSchemaEntry where
  default : String
  required : Bool
  enum : List String
deriving DecidableEq, Repr

/-- Embeds `corev1.EnvVar` as used by the repository: a name and either a
literal value or a secret-key source (`ValueFrom.SecretKeyRef`). -/
structure EnvVar where
  name : String
  value : String
  valueFromSecret : Option SecretKeySelector
deriving DecidableEq, Repr

/-- Association-list lookup; the embedding of reading a Go map. -/
def lookupKey {α : Type} (l : List (String × α)) (k : String) : Option α :=
  match l with
  | [] => none
  | (k0, v0) :: rest => if k0 = k then some v0 else lookupKey rest k

/-- Keys of an association list. -/
def keysOf {α : Type} (l : List (String × α)) : List String := l.map Prod.fst

/-- Embeds the env-var name synthesis in `ResolveConfigValues`
(`interpolate.go:80`): `"CONFIG_" + strings.ToUpper(strings.ReplaceAll(key, "-", "_"))`,
as the per-character composition of the hyphen replacement and ASCII
uppercasing. -/
def configEnvName (key : String) : String :=
  "CONFIG_" ++
    String.mk (key.data.map fun c => (if c = '-' then '_' else c).toUpper)

/-- Embeds the `corev1.EnvVar` literal built for a secret-backed config entry
in `ResolveConfigValues` (`interpolate.go:81-86`). -/
def secretEnvVar (key : String) (ref : SecretKeySelector) : EnvVar :=
  ⟨configEnvName key, "", some ref⟩

/-- Replaces the value stored under `k`, in place, or appends `(k, v)`;
the embedding of a Go map assignment `m[k] = v`. -/
def upsertVal (l : List (String × String)) (k : String) (v : String) :
    List (String × String) :=
  match l with
  | [] => [(k, v)]
  | (k0, v0) :: rest =>
    if k0 = k then (k0, v) :: rest else (k0, v0) :: upsertVal rest k v

/-- Embeds the defaults-seeding loop of `ResolveConfigValues`
(`interpolate.go:70-74`): every schema entry with a non-empty default is
entered into the fresh `values` map. -/
def seedDefaults (schema : List (String × ConfigSchemaEntry)) :
    List (String × String) :=
  match schema with
  | [] => []
  | (k, e) :: rest =>
    if e.default = "" then seedDefaults rest
    else (k, e.default) :: seedDefaults rest

/-- Embeds the user-override loop of `ResolveConfigValues`
(`interpolate.go:77-92`): a secret-backed entry appends an env binding and
stores the placeholder `"$(" + envName + ")"`, a literal entry stores the
literal. -/
def applyUserConfig (values : List (String × String))
    (config : List (String × ConfigValue)) :
    List (String × String) × List EnvVar :=
  match config with
  | [] => (values, [])
  | (k, cv) :: rest =>
    match cv.secretKeyRef with
    | some ref =>
      let envName := configEnvName k
      let out := applyUserConfig (upsertVal values k ("$(" ++ envName ++ ")")) rest
      (out.1, secretEnvVar k ref :: out.2)
    | none => applyUserConfig (upsertVal values k cv.value) rest

/-- Embeds `config.ResolveConfigValues` (`interpolate.go:62-95`). -/
def resolveConfigValues (config : List (String × ConfigValue))
    (schema : List (String × ConfigSchemaEntry)) :
    List (String × String) × List EnvVar :=
  applyUserConfig (seedDefaults schema) config

/-- Kinds of validation failure produced by `ValidateConfig`, each carrying
the offending key, mirroring the three error messages in
`interpolate.go:107,111,119,135`. -/
inductive ValidationErrorKind
  | requiredMissing
  | requiredEmpty
  | unknownKey
  | enumViolation
deriving DecidableEq, Repr

/-- Validation error returned by the embedding of `ValidateConfig`: the
offending key plus which check failed. -/
structure ValidationError where
  key : String
  kind : ValidationErrorKind
deriving DecidableEq, Repr

/-- Embeds the required-fields loop of `ValidateConfig`
(`interpolate.go:103-114`). -/
def checkRequired (config : List (String × ConfigValue)) :
    List (String × ConfigSchemaEntry) → Option ValidationError
  | [] => none
  | (k, e) :: rest =>
    if e.required then
      match lookupKey config k with
      | none => some ⟨k, .requiredMissing⟩
      | some cv =>
        if cv.value = "" ∧ cv.secretKeyRef = none then some ⟨k, .requiredEmpty⟩
        else checkRequired config rest
    else checkRequired config rest

/-- Embeds the unknown-keys loop of `ValidateConfig`
(`interpolate.go:117-121`). -/
def checkUnknown (schema : List (String × ConfigSchemaEntry)) :
    List (String × ConfigValue) → Option ValidationError
  | [] => none
  | (k, _) :: rest =>
    match lookupKey schema k with
    | none => some ⟨k, .unknownKey⟩
    | some _ => checkUnknown schema rest

/-- Embeds the enum loop of `ValidateConfig` (`interpolate.go:124-139`);
`schema[key]` on a missing key yields Go's zero `ConfigSchemaEntry`, embedded
with `Option.getD`. -/
def checkEnum (schema : List (String × ConfigSchemaEntry)) :
    List (String × ConfigValue) → Option ValidationError
  | [] => none
  | (k, cv) :: rest =>
    let entry := (lookupKey schema k).getD ⟨"", false, []⟩
    if entry.enum ≠ [] ∧ cv.value ≠ "" ∧ cv.value ∉ entry.enum then
      some ⟨k, .enumViolation⟩
    else checkEnum schema rest

/-- Embeds `config.ValidateConfig` (`interpolate.go:98-142`): required
check, then unknown-key check, then enum check, returning the first
violation. -/
def validateConfig (config : List (String × ConfigValue))
    (schema : List (String × ConfigSchemaEntry)) : Option ValidationError :=
  match checkRequired config schema with
  | some e => some e
  | none =>
    match checkUnknown schema config with
    | some e => some e
    | none => checkEnum schema config

/-- Index of the first entry of `seen` with the given name; the embedding of
reading the `seen` map in `MergeEnvVars` (`interpolate.go:151`). -/
def lookupIdx (seen : List (String × Nat)) (name : String) : Option Nat :=
  lookupKey seen name

/-- Embeds one iteration of the inner loop of `MergeEnvVars`
(`interpolate.go:150-159`): an already-seen name overwrites the existing
entry in place, a new name is appended and recorded in `seen`. -/
def mergeStep (acc : List (String × Nat) × List EnvVar) (env : EnvVar) :
    List (String × Nat) × List EnvVar :=
  match lookupIdx acc.1 env.name with
  | some idx => (acc.1, acc.2.set idx env)
  | none => (acc.1 ++ [(env.name, acc.2.length)], acc.2 ++ [env])

/-- Embeds `config.MergeEnvVars` (`interpolate.go:145-163`). -/
def mergeEnvVars (envSlices : List (List EnvVar)) : List EnvVar :=
  (envSlices.foldl (fun acc envs => envs.foldl mergeStep acc) ([], [])).2

/-- Position of the first entry with the given name in an env-var list. -/
def findNameIdx (l : List EnvVar) (n : String) : Option Nat :=
  match l with
  | [] => none
  | e :: rest =>
    if e.name = n then some 0 else (findNameIdx rest n).map (· + 1)

/-- Reference form of the merge used to state the union property: a later
entry with an already-present name replaces that entry in place, any other
entry is appended (first-seen order). -/
def mergeSpecStep (result : List EnvVar) (env : EnvVar) : List EnvVar :=
  match findNameIdx result env.name with
  | some idx => result.set idx env
  | none => result ++ [env]

/-- Reference merge over the concatenation of all layers. -/
def mergeSpec (envSlices : List (List EnvVar)) : List EnvVar :=
  envSlices.flatten.foldl mergeSpecStep []

/-- Embeds `StatefulSetBuilder.buildMainEnvVars` (`statefulset.go:295-301`):
GameDefinition defaults, then SteamServer entries, then config secret
bindings, merged by `MergeEnvVars`; a nil GameDefinition contributes an
empty first layer. -/
def buildMainEnvVars (gameDefEnv : Option (List EnvVar))
    (serverEnv : List EnvVar) (configEnvVars : List EnvVar) : List EnvVar :=
  mergeEnvVars [gameDefEnv.getD [], serverEnv, configEnvVars]


/-- Scans to the first two-character closing delimiter of a template action:
`splitAction cs = some (act, rest)` splits `cs` into the action body and the
text after the delimiter, `none` means the action is never closed. Part of
the model of Go `text/template` as exercised by `interpolate.go`. -/
def splitAction : List Char → Option (List Char × List Char)
  | [] => none
  | [_] => none
  | c1 :: c2 :: rest =>
    if c1 = '\x7d' ∧ c2 = '\x7d' then some ([], rest)
    else (splitAction (c2 :: rest)).map (fun p => (c1 :: p.1, p.2))

theorem splitAction_length {cs act rest : List Char}
    (h : splitAction cs = some (act, rest)) : rest.length < cs.length := by
  induction cs generalizing act rest with
  | nil => simp [splitAction] at h
  | cons c1 tail ih =>
    cases tail with
    | nil => simp [splitAction] at h
    | cons c2 rest2 =>
      rw [splitAction] at h
      by_cases hb : c1 = '\x7d' ∧ c2 = '\x7d'
      · rw [if_pos hb] at h
        cases h
        simp only [List.length_cons]
        omega
      · rw [if_neg hb] at h
        cases hs2 : splitAction (c2 :: rest2) with
        | none => rw [hs2] at h; simp at h
        | some p =>
          rw [hs2] at h
          obtain ⟨a2, r2⟩ := p
          simp only [Option.map_some'] at h
          cases h
          have := ih hs2
          simp only [List.length_cons] at this ⊢
          omega

/-- Characters permitted in a `.Config.<key>` field name of a template
action (Go identifier characters). -/
def isIdentChar (c : Char) : Bool := c.isAlphanum || c = '_'

/-- Recognizes the one action shape the repository's templates use,
`.Config.<key>` (see the `TemplateData` context of `interpolate.go:16-18`
and the `arg`/`str` templates rendered against it): returns the referenced
key, or `none` for any other action body (which Go `text/template` rejects
at parse time or fails to evaluate against `TemplateData`). -/
def checkAction (cs : List Char) : Option String :=
  match cs with
  | '.' :: 'C' :: 'o' :: 'n' :: 'f' :: 'i' :: 'g' :: '.' :: key =>
    if key ≠ [] ∧ key.all isIdentChar then some (String.mk key) else none
  | _ => none

/-- Renders one template over a character list: plain text is copied, a
`.Config.<key>` action substitutes the looked-up value or the fixed
diagnostic placeholder `<no value>` when the key is absent, and any
malformed action is an error. Models the Go `text/template`
parse-and-execute pair used by `InterpolateArgs`/`InterpolateString`
(`interpolate.go:26-34,45-52`) on the template fragment the repository
uses. -/
def renderChars (config : List (String × String)) : List Char → Except String (List Char)
  | [] => .ok []
  | [c] => .ok [c]
  | c1 :: c2 :: rest =>
    if c1 = '\x7b' ∧ c2 = '\x7b' then
      match hs : splitAction rest with
      | none => .error "failed to parse template: unclosed action"
      | some (act, rem) =>
        match checkAction act with
        | none => .error "failed to execute template: unsupported action"
        | some key =>
          let sub := match lookupKey config key with
            | some v => v.data
            | none => "<no value>".data
          match renderChars config rem with
          | .ok out => .ok (sub ++ out)
          | .error e => .error e
    else
      match renderChars config (c2 :: rest) with
      | .ok out => .ok (c1 :: out)
      | .error e => .error e
termination_by cs => cs.length
decreasing_by
· have := splitAction_length hs
  simp only [List.length_cons]
  omega
· simp only [List.length_cons]
  omega

/-- Embeds `config.InterpolateString` (`interpolate.go:42-56`). -/
def interpolateString (s : String) (config : List (String × String)) :
    Except String String :=
  match renderChars config s.data with
  | .ok out => .ok (String.mk out)
  | .error e => .error e

/-- Embeds `config.InterpolateArgs` (`interpolate.go:21-39`): renders each
arg in order, returning the first parse/execute error. -/
def interpolateArgs (args : List String) (config : List (String × String)) :
    Except String (List String) :=
  match args with
  | [] => .ok []
  | a :: rest =>
    match interpolateString a config with
    | .error e => .error e
    | .ok v =>
      match interpolateArgs rest config with
      | .error e => .error e
      | .ok vs => .ok (v :: vs)

/-- Embeds `StatefulSetBuilder.getInterpolatedArgs`
(`statefulset.go:140-152`): empty args yield nil, and an interpolation
error falls back to the raw args. -/
def getInterpolatedArgs (args : List String)
    (configValues : List (String × String)) : List String :=
  if args = [] then []
  else
    match interpolateArgs args configValues with
    | .ok interpolated => interpolated
    | .error _ => args

/-- Embeds `resource.Quantity` as its canonical value in base units
(bytes for storage quantities). -/
structure Quantity where
  value : Int
deriving DecidableEq, Repr

/-- Multiplier of a quantity suffix; the standard binary and decimal
suffixes accepted by `resource.ParseQuantity`. -/
def suffixMultiplier (s : String) : Option Int :=
  if s = "" then some 1
  else if s = "k" then some 1000
  else if s = "M" then some 1000000
  else if s = "G" then some 1000000000
  else if s = "T" then some 1000000000000
  else if s = "Ki" then some 1024
  else if s = "Mi" then some (1024 ^ 2)
  else if s = "Gi" then some (1024 ^ 3)
  else if s = "Ti" then some (1024 ^ 4)
  else none

/-- Numeric value of a digit string. -/
def digitsToNat (cs : List Char) : Nat :=
  cs.foldl (fun n c => n * 10 + (c.toNat - 48)) 0

/-- Models `resource.ParseQuantity` restricted to the quantities the
repository's specs use: a non-empty run of decimal digits followed by one
of the standard suffixes; anything else is a parse error. -/
def parseQuantity (s : String) : Except String Quantity :=
  let digits := s.data.takeWhile Char.isDigit
  let suffix := s.data.dropWhile Char.isDigit
  if digits = [] then .error "quantities must match the regular expression"
  else
    match suffixMultiplier (String.mk suffix) with
    | none => .error "unable to parse quantity suffix"
    | some m => .ok ⟨(digitsToNat digits : Int) * m⟩

/-- Embeds `resource.Quantity.IsZero`. -/
def Quantity.isZero (q : Quantity) : Bool := q.value = 0

/-- Embeds `api/v1alpha1.StorageSpec`. -/
structure StorageSpec where
  size : Quantity
  storageClassName : Option String
deriving DecidableEq, Repr

/-- Embeds `resources.DefaultStorageSize` (`pvc.go:12`). -/
def DefaultStorageSize : String := "20Gi"

/-- Portion of `api/v1alpha1.GameDefinitionSpec` read by the embedded
builders and controller steps. `configSchema` is an `Option` because the Go
map can be nil and the controller branches on nil-ness
(`steamserver_controller.go:108`). -/
structure GameDefSpec where
  image : String
  command : String
  args : List String
  env : List EnvVar
  configSchema : Option (List (String × ConfigSchemaEntry))
  defaultStorage : String
deriving DecidableEq, Repr

/-- Embeds `api/v1alpha1.ConfigFile`. -/
structure ConfigFile where
  path : String
  content : String
deriving DecidableEq, Repr

/-- Portion of a `SteamServer` object read by the embedded builders and
controller steps: object name/namespace plus the spec fields involved in
the claims. `game` embeds the `Spec.Game` string the builders read for
their `boilerr.dev/game` label (`pvc.go:89`, `statefulset.go:81`). -/
structure SteamServer where
  name : String
  onamespace : String
  gameDefinition : String
  game : String
  config : List (String × ConfigValue)
  configFiles : List ConfigFile
  image : String
  command : List String
  args : List String
  env : List EnvVar
  storage : Option StorageSpec
deriving DecidableEq, Repr

/-- Embeds `PVCBuilder.getStorageSize` (`pvc.go:64-81`): instance storage
first, then a parseable non-empty GameDefinition default, then the hard
default. -/
def getStorageSize (server : SteamServer) (gameDef : Option GameDefSpec) :
    Quantity :=
  match server.storage with
  | some st => st.size
  | none =>
    match gameDef with
    | some gd =>
      if gd.defaultStorage ≠ "" then
        match parseQuantity gd.defaultStorage with
        | .ok qty => qty
        | .error _ =>
          match parseQuantity DefaultStorageSize with
          | .ok qty => qty
          | .error _ => ⟨0⟩
      else
        match parseQuantity DefaultStorageSize with
        | .ok qty => qty
        | .error _ => ⟨0⟩
    | none =>
      match parseQuantity DefaultStorageSize with
      | .ok qty => qty
      | .error _ => ⟨0⟩

/-- Synthesized storage claim: the fields of the `corev1.PersistentVolumeClaim`
built by `PVCBuilder.Build` that the claims inspect. -/
structure PVC where
  name : String
  onamespace : String
  labels : List (String × String)
  requestStorage : Quantity
  storageClassName : Option String
deriving DecidableEq, Repr

/-- Embeds `PVCBuilder.labels` (`pvc.go:84-91`). -/
def pvcLabels (server : SteamServer) : List (String × String) :=
  [("app.kubernetes.io/name", "steamserver"),
   ("app.kubernetes.io/instance", server.name),
   ("app.kubernetes.io/managed-by", "boilerr"),
   ("boilerr.dev/game", server.game)]

/-- Embeds `resources.PVCName` (`statefulset.go:389-391`). -/
def PVCName (serverName : String) : String := serverName ++ "-data"

/-- Embeds `PVCBuilder.Build` (`pvc.go:28-60`): returns no claim when the
resolved size is zero; otherwise a claim requesting the resolved size, with
the instance's storage class when one is set. -/
def buildPVC (server : SteamServer) (gameDef : Option GameDefSpec) :
    Option PVC :=
  let storageSize := getStorageSize server gameDef
  if storageSize.isZero then none
  else
    some
      { name := PVCName server.name
        onamespace := server.onamespace
        labels := pvcLabels server
        requestStorage := storageSize
        storageClassName :=
          match server.storage with
          | some st => st.storageClassName
          | none => none }

/-- Embeds `resources.InitContainerName` (`statefulset.go:21`). -/
def InitContainerName : String := "steamcmd"

/-- Embeds `resources.GameServerContainerName` (`statefulset.go:23`). -/
def GameServerContainerName : String := "gameserver"

/-- Names of the lifecycle states of `api/v1alpha1.ServerState`. -/
inductive ServerState
  | pending
  | installing
  | starting
  | running
  | error
deriving DecidableEq, Repr

/-- Embeds `corev1.ContainerState`: exactly one of waiting, running, or
terminated (with exit code) is set. -/
inductive ContainerState
  | waiting
  | running
  | terminated (exitCode : Int)
deriving DecidableEq, Repr

/-- Embeds the fields of `corev1.ContainerStatus` read by `determineState`. -/
structure ContainerStatus where
  name : String
  state : ContainerState
  ready : Bool
deriving DecidableEq, Repr

/-- Embeds `corev1.PodPhase`. -/
inductive PodPhase
  | pending
  | running
  | succeeded
  | failed
  | unknown
deriving DecidableEq, Repr

/-- Embeds the fields of `corev1.PodStatus` read by `determineState`. -/
structure PodStatus where
  phase : PodPhase
  initContainerStatuses : List ContainerStatus
  containerStatuses : List ContainerStatus
deriving DecidableEq, Repr

/-- Embeds the fields of `appsv1.StatefulSetStatus` read by
`determineState`. -/
structure StsStatus where
  readyReplicas : Int
  replicas : Int
deriving DecidableEq, Repr

/-- Outcome of a client `Get`: not-found, some other fetch error, or the
object. -/
inductive FetchErr
  | notFound
  | other
deriving DecidableEq, Repr

/-- Embeds the init-container loop of `determineState`
(`steamserver_controller.go:413-422`): scanning in order, an entry named
`steamcmd` that is running yields Installing and one that terminated
non-zero yields Error; everything else is skipped. -/
def scanInitContainers : List ContainerStatus → Option ServerState
  | [] => none
  | cs :: rest =>
    if cs.name = InitContainerName then
      match cs.state with
      | .running => some .installing
      | .terminated code =>
        if code ≠ 0 then some .error else scanInitContainers rest
      | .waiting => scanInitContainers rest
    else scanInitContainers rest

/-- Embeds the main-container loop of `determineState`
(`steamserver_controller.go:424-433`): an entry named `gameserver` that is
running and ready yields Running, running but not ready yields Starting;
everything else is skipped. -/
def scanMainContainers : List ContainerStatus → Option ServerState
  | [] => none
  | cs :: rest =>
    if cs.name = GameServerContainerName then
      match cs.state with
      | .running => if cs.ready then some .running else some .starting
      | _ => scanMainContainers rest
    else scanMainContainers rest

/-- Embeds `SteamServerReconciler.determineState`
(`steamserver_controller.go:379-440`), with the StatefulSet fetch and the
pod fetch each represented by an `Except FetchErr` result. -/
def determineState (stsRes : Except FetchErr StsStatus)
    (podRes : Except FetchErr PodStatus) : ServerState :=
  match stsRes with
  | .error .notFound => .pending
  | .error .other => .error
  | .ok sts =>
    if sts.readyReplicas = 0 ∧ sts.replicas = 0 then .pending
    else
      match podRes with
      | .error .notFound => .pending
      | .error .other => .error
      | .ok pod =>
        match pod.phase with
        | .pending => .pending
        | .running =>
          match scanInitContainers pod.initContainerStatuses with
          | some s => s
          | none =>
            match scanMainContainers pod.containerStatuses with
            | some s => s
            | none => .starting
        | .failed => .error
        | _ => .pending

/-- Restatement of the claimed priority table for the state classifier,
dispatching on the first status entry carrying the install or main
container name. Compared against `determineState`. -/
def claimedState (stsRes : Except FetchErr StsStatus)
    (podRes : Except FetchErr PodStatus) : ServerState :=
  match stsRes with
  | .error .notFound => .pending
  | .error .other => .error
  | .ok sts =>
    if sts.readyReplicas = 0 ∧ sts.replicas = 0 then .pending
    else
      match podRes with
      | .error .notFound => .pending
      | .error .other => .error
      | .ok pod =>
        match pod.phase with
        | .pending => .pending
        | .running =>
          let initCS := pod.initContainerStatuses.find?
            (fun cs => cs.name = InitContainerName)
          let mainCS := pod.containerStatuses.find?
            (fun cs => cs.name = GameServerContainerName)
          let mainState : ServerState :=
            match mainCS with
            | some cs =>
              if cs.state = .running ∧ cs.ready then .running else .starting
            | none => .starting
          match initCS with
          | some cs =>
            match cs.state with
            | .running => .installing
            | .terminated code => if code ≠ 0 then .error else mainState
            | .waiting => mainState
          | none => mainState
        | .failed => .error
        | _ => .pending

/-- Write operations a reconcile pass can issue against the store, one per
create/update call site in `steamserver_controller.go`. -/
inductive WriteOp
  | createConfigMap
  | updateConfigMap
  | createPVC
  | updatePVCLabels
  | createSTS
  | updateSTS
  | createSVC
  | updateSVC
  | statusWrite
deriving DecidableEq, Repr

/-- Embeds `commonLabels` (`steamserver_controller.go:563-573`). -/
def commonLabels (name gameDefinition : String) : List (String × String) :=
  [("app.kubernetes.io/name", "steamserver"),
   ("app.kubernetes.io/instance", name),
   ("app.kubernetes.io/managed-by", "boilerr")] ++
  (if gameDefinition ≠ "" then [("boilerr.dev/game", gameDefinition)] else [])

/-- Embeds `hasLabels` (`steamserver_controller.go:576-583`); a key absent
from `actual` reads as Go's zero string. -/
def hasLabels (actual expected : List (String × String)) : Bool :=
  expected.all fun kv => (lookupKey actual kv.1).getD "" = kv.2

/-- Mutable fields of the synthesized ConfigMap (labels and data), the part
compared by `controllerutil.CreateOrUpdate` to decide whether to write. -/
structure ConfigMapState where
  labels : List (String × String)
  data : List (String × String)
deriving DecidableEq, Repr

/-- Embeds the data loop of `reconcileConfigMap`
(`steamserver_controller.go:196-199`): entry `config-<i>` holds the i-th
config file's content. -/
def configMapData (configFiles : List ConfigFile) : List (String × String) :=
  configFiles.enum.map fun ic => ("config-" ++ toString ic.1, ic.2.content)

/-- Embeds `reconcileConfigMap` (`steamserver_controller.go:177-213`) as
the writes it issues: skipped entirely without config files; otherwise
`CreateOrUpdate` creates a missing object and updates an existing one only
when the mutated object differs. -/
def reconcileConfigMapWrites (server : SteamServer)
    (existing : Option ConfigMapState) : List WriteOp :=
  if server.configFiles = [] then []
  else
    let desired : ConfigMapState :=
      ⟨commonLabels server.name server.gameDefinition,
       configMapData server.configFiles⟩
    match existing with
    | none => [.createConfigMap]
    | some e => if e = desired then [] else [.updateConfigMap]

/-- Embeds `reconcilePVC` (`steamserver_controller.go:216-253`) as the
writes it issues: nothing to do without a desired claim, create when
missing, update only when the existing labels lack a desired label. -/
def reconcilePVCWrites (server : SteamServer) (gameDef : Option GameDefSpec)
    (existing : Option PVC) : List WriteOp :=
  match buildPVC server gameDef with
  | none => []
  | some desired =>
    match existing with
    | none => [.createPVC]
    | some e =>
      if ¬ hasLabels e.labels desired.labels then [.updatePVCLabels] else []

/-- Embeds `reconcileStatefulSet` (`steamserver_controller.go:256-286`) as
the writes it issues: create when missing, otherwise an unconditional
spec/labels update. The synthesized object is abstracted as `σ`. -/
def reconcileStatefulSetWrites {σ : Type} (_desired : σ)
    (existing : Option σ) : List WriteOp :=
  match existing with
  | none => [.createSTS]
  | some _ => [.updateSTS]

/-- Embeds `reconcileService` (`steamserver_controller.go:289-321`) as the
writes it issues: create when missing, otherwise an unconditional update of
type/selector/ports/labels. The synthesized object is abstracted as `τ`. -/
def reconcileServiceWrites {τ : Type} (_desired : τ)
    (existing : Option τ) : List WriteOp :=
  match existing with
  | none => [.createSVC]
  | some _ => [.updateSVC]

/-- Embeds `api/v1alpha1.PortStatus`. -/
structure PortStatus where
  name : String
  port : Int
  protocol : String
deriving DecidableEq, Repr

/-- Embeds `portsEqual` (`steamserver_controller.go:586-596`). -/
def portsEqual (a b : List PortStatus) : Bool :=
  if a.length ≠ b.length then false
  else (a.zip b).all fun xy =>
    xy.1.name = xy.2.name ∧ xy.1.port = xy.2.port ∧ xy.1.protocol = xy.2.protocol

/-- Status fields compared by `updateStatus` to decide whether to write. -/
structure StatusSnapshot where
  state : ServerState
  address : String
  ports : List PortStatus
deriving DecidableEq, Repr

/-- Embeds the write decision of `updateStatus`
(`steamserver_controller.go:347-368`): a status write happens only when
state, address, or the port snapshot changed. -/
def updateStatusWrites (old : StatusSnapshot) (newState : ServerState)
    (newAddress : String) (newPorts : List PortStatus) : List WriteOp :=
  if old.state ≠ newState ∨ old.address ≠ newAddress ∨
      ¬ portsEqual old.ports newPorts then [.statusWrite]
  else []

/-- Writes issued by steps 7-8 of a successful `Reconcile` pass
(`steamserver_controller.go:115-132`): ConfigMap, PVC, StatefulSet,
Service, then the status update. -/
def reconcilePassWrites {σ τ : Type} (server : SteamServer)
    (gameDef : Option GameDefSpec) (existingCM : Option ConfigMapState)
    (existingPVC : Option PVC) (desiredSTS : σ) (existingSTS : Option σ)
    (desiredSVC : τ) (existingSVC : Option τ) (oldStatus : StatusSnapshot)
    (newState : ServerState) (newAddress : String)
    (newPorts : List PortStatus) : List WriteOp :=
  reconcileConfigMapWrites server existingCM ++
  reconcilePVCWrites server gameDef existingPVC ++
  reconcileStatefulSetWrites desiredSTS existingSTS ++
  reconcileServiceWrites desiredSVC existingSVC ++
  updateStatusWrites oldStatus newState newAddress newPorts

/-- Embeds `fetchGameDefinition` (`steamserver_controller.go:137-153`):
an empty reference is fallback mode (no template, no error); otherwise the
store is consulted, with not-found converted to a named error. -/
def fetchGameDefinition (ref : String)
    (get : String → Except FetchErr GameDefSpec) :
    Except String (Option GameDefSpec) :=
  if ref = "" then .ok none
  else
    match get ref with
    | .error .notFound => .error ("GameDefinition " ++ ref ++ " not found")
    | .error .other => .error "failed to get GameDefinition"
    | .ok gd => .ok (some gd)

/-- Embeds step 6 of `Reconcile` (`steamserver_controller.go:108-112`):
config validation runs only when a GameDefinition with a non-nil schema is
present. -/
def validateStep (gameDef : Option GameDefSpec)
    (config : List (String × ConfigValue)) : Option ValidationError :=
  match gameDef with
  | some gd =>
    match gd.configSchema with
    | some schema => validateConfig config schema
    | none => none
  | none => none

/-- Embeds `StatefulSetBuilder.resolveConfigValues`
(`statefulset.go:131-137`): a nil GameDefinition (or nil schema) resolves
against an empty schema. -/
def builderSchema (gameDef : Option GameDefSpec) :
    List (String × ConfigSchemaEntry) :=
  match gameDef with
  | some gd => gd.configSchema.getD []
  | none => []

/-- Embeds `resources.DefaultImage` (`statefulset.go:25`). -/
def DefaultImage : String := "steamcmd/steamcmd:ubuntu-22"

/-- Embeds `StatefulSetBuilder.getImage` (`statefulset.go:168-176`). -/
def getImage (server : SteamServer) (gameDef : Option GameDefSpec) : String :=
  if server.image ≠ "" then server.image
  else
    match gameDef with
    | some gd => if gd.image ≠ "" then gd.image else DefaultImage
    | none => DefaultImage

/-- JSON values, the input domain of `ConfigValue.UnmarshalJSON`. -/
inductive Json
  | str (s : String)
  | num (n : Int)
  | boolean (b : Bool)
  | null
  | arr (xs : List Json)
  | obj (fields : List (String × Json))

/-- Models `json.Unmarshal` into a Go `string`: a JSON string succeeds,
JSON `null` leaves the zero value, anything else is a type error. -/
def unmarshalToString : Json → Except String String
  | .str s => .ok s
  | .null => .ok ""
  | _ => .error "cannot unmarshal into Go value of type string"

/-- Models reading an optional string field of a JSON object during struct
unmarshaling: a missing field or `null` leaves the zero value. -/
def getStringField (fields : List (String × Json)) (k : String) :
    Except String String :=
  match lookupKey fields k with
  | none => .ok ""
  | some j => unmarshalToString j

/-- Models `json.Unmarshal` into `corev1.SecretKeySelector` for the fields
the repository reads (`name` via the inlined `LocalObjectReference`, and
`key`). -/
def unmarshalSecretKeySelector : Json → Except String SecretKeySelector
  | .obj fields =>
    match getStringField fields "name" with
    | .error e => .error e
    | .ok name =>
      match getStringField fields "key" with
      | .error e => .error e
      | .ok key => .ok ⟨name, key⟩
  | _ => .error "cannot unmarshal into Go value of type SecretKeySelector"

/-- Models `json.Unmarshal` into the `configValueAlias` struct (the
structured form of `ConfigValue`, `common_types.go`): an object with
optional `value` and `secretKeyRef` fields. -/
def unmarshalConfigValueAlias : Json → Except String ConfigValue
  | .obj fields =>
    match getStringField fields "value" with
    | .error e => .error e
    | .ok value =>
      match lookupKey fields "secretKeyRef" with
      | none => .ok ⟨value, none⟩
      | some .null => .ok ⟨value, none⟩
      | some j =>
        match unmarshalSecretKeySelector j with
        | .error e => .error e
        | .ok ref => .ok ⟨value, some ref⟩
  | .null => .ok ⟨"", none⟩
  | _ => .error "cannot unmarshal into Go value of type ConfigValue"

/-- Embeds `ConfigValue.UnmarshalJSON` (`common_types.go`): first attempt a
bare string, then fall back to the structured object form. -/
def unmarshalConfigValue (data : Json) : Except String ConfigValue :=
  match unmarshalToString data with
  | .ok s => .ok ⟨s, none⟩
  | .error _ => unmarshalConfigValueAlias data

/-- C3: decoding a ConfigValue accepts both a bare scalar (treated as a
literal string) and the structured object form; both decode successfully,
a bare scalar decodes to the same result as the equivalent structured
literal, and the structured secret-reference form decodes to the secret
reference. -/
theorem configValue_decodes_scalar_and_object :
    ∀ s name key : String,
      unmarshalConfigValue (.str s) = .ok ⟨s, none⟩ ∧
      unmarshalConfigValue (.obj [("value", .str s)]) = .ok ⟨s, none⟩ ∧
      unmarshalConfigValue (.str s) =
        unmarshalConfigValue (.obj [("value", .str s)]) ∧
      unmarshalConfigValue
          (.obj [("secretKeyRef",
            .obj [("name", .str name), ("key", .str key)])]) =
        .ok ⟨"", some ⟨name, key⟩⟩ := by
  intro s name key
  refine ⟨rfl, rfl, rfl, rfl⟩

/-- C10: with an empty template reference the reconcile pass is in fallback
mode — the template fetch returns no template and no error, the
schema-validation step is skipped so every user config map is accepted, and
synthesis resolves config against an empty schema and uses the hard default
image. -/
theorem fallback_mode_skips_validation :
    ∀ (get : String → Except FetchErr GameDefSpec)
      (config : List (String × ConfigValue)) (server : SteamServer),
      fetchGameDefinition "" get = .ok none ∧
      validateStep none config = none ∧
      builderSchema none = [] ∧
      resolveConfigValues config (builderSchema none) =
        resolveConfigValues config [] ∧
      (server.image = "" → getImage server none = DefaultImage) := by
  intro get config server
  refine ⟨rfl, rfl, rfl, rfl, ?_⟩
  intro h
  simp [getImage, h]

/-- Witness for `fallback_mode_skips_validation` at a concrete store,
config, and server. -/
theorem fallback_mode_skips_validation_witness :
    fetchGameDefinition "" (fun _ => .error .notFound) = .ok none ∧
    validateStep none [("x", ⟨"1", none⟩)] = none ∧
    builderSchema none = [] ∧
    resolveConfigValues [("x", ⟨"1", none⟩)] (builderSchema none) =
      resolveConfigValues [("x", ⟨"1", none⟩)] [] ∧
    (({ name := "s", onamespace := "ns", gameDefinition := "", game := "",
        config := [], configFiles := [], image := "", command := [],
        args := [], env := [], storage := none } : SteamServer).image = "" →
      getImage
        { name := "s", onamespace := "ns", gameDefinition := "", game := "",
          config := [], configFiles := [], image := "", command := [],
          args := [], env := [], storage := none } none = DefaultImage) :=
  fallback_mode_skips_validation (fun _ => .error .notFound)
    [("x", ⟨"1", none⟩)]
    { name := "s", onamespace := "ns", gameDefinition := "", game := "",
      config := [], configFiles := [], image := "", command := [],
      args := [], env := [], storage := none }

/-- C9: the synthesized storage claim's requested size follows the
precedence instance value, else template default, else hard default:
template default "20Gi" with instance storage unset requests 20Gi;
instance storage "30Gi" requests 30Gi with the template default ignored;
an instance size always wins when non-zero; without a template the hard
default 20Gi applies; and when the resolved size is zero no storage claim
is built and the PVC step issues no writes (it is not an error path). -/
theorem pvc_storage_size_precedence :
    (∀ (server : SteamServer) (gd : GameDefSpec),
      server.storage = none → gd.defaultStorage = "20Gi" →
      (buildPVC server (some gd)).map PVC.requestStorage =
        some ⟨20 * 1024 ^ 3⟩) ∧
    (∀ (server : SteamServer) (gd : GameDefSpec) (sc : Option String),
      server.storage = some ⟨⟨30 * 1024 ^ 3⟩, sc⟩ →
      (buildPVC server (some gd)).map PVC.requestStorage =
        some ⟨30 * 1024 ^ 3⟩) ∧
    (∀ (server : SteamServer) (gameDef : Option GameDefSpec)
      (st : StorageSpec),
      server.storage = some st → st.size.value ≠ 0 →
      (buildPVC server gameDef).map PVC.requestStorage = some st.size) ∧
    (∀ server : SteamServer, server.storage = none →
      (buildPVC server none).map PVC.requestStorage =
        some ⟨20 * 1024 ^ 3⟩) ∧
    (∀ (server : SteamServer) (gameDef : Option GameDefSpec)
      (existing : Option PVC),
      getStorageSize server gameDef = ⟨0⟩ →
      buildPVC server gameDef = none ∧
      reconcilePVCWrites server gameDef existing = []) := by
  refine ⟨?_, ?_, ?_, ?_, ?_⟩
  · intro server gd hs hd
    simp [buildPVC, getStorageSize, hs, hd, Quantity.isZero, parseQuantity,
      digitsToNat, suffixMultiplier]
  · intro server gd sc hs
    simp [buildPVC, getStorageSize, hs, Quantity.isZero]
  · intro server gameDef st hs hnz
    simp [buildPVC, getStorageSize, hs, Quantity.isZero, hnz]
  · intro server hs
    simp [buildPVC, getStorageSize, hs, Quantity.isZero, DefaultStorageSize,
      parseQuantity, digitsToNat, suffixMultiplier]
  · intro server gameDef existing h
    constructor
    · simp [buildPVC, h, Quantity.isZero]
    · simp [reconcilePVCWrites, buildPVC, h, Quantity.isZero]

/-- Witness for `pvc_storage_size_precedence` at concrete servers and
template defaults. -/
theorem pvc_storage_size_precedence_witness :
    ((buildPVC
      { name := "s", onamespace := "ns", gameDefinition := "g", game := "g",
        config := [], configFiles := [], image := "", command := [],
        args := [], env := [], storage := none }
      (some ⟨"", "run", [], [], none, "20Gi"⟩)).map PVC.requestStorage =
        some ⟨20 * 1024 ^ 3⟩) ∧
    ((buildPVC
      { name := "s", onamespace := "ns", gameDefinition := "g", game := "g",
        config := [], configFiles := [], image := "", command := [],
        args := [], env := [],
        storage := some ⟨⟨30 * 1024 ^ 3⟩, none⟩ }
      (some ⟨"", "run", [], [], none, "20Gi"⟩)).map PVC.requestStorage =
        some ⟨30 * 1024 ^ 3⟩) ∧
    (buildPVC
      { name := "s", onamespace := "ns", gameDefinition := "g", game := "g",
        config := [], configFiles := [], image := "", command := [],
        args := [], env := [], storage := some ⟨⟨0⟩, none⟩ }
      (some ⟨"", "run", [], [], none, "20Gi"⟩) = none ∧
      reconcilePVCWrites
        { name := "s", onamespace := "ns", gameDefinition := "g", game := "g",
          config := [], configFiles := [], image := "", command := [],
          args := [], env := [], storage := some ⟨⟨0⟩, none⟩ }
        (some ⟨"", "run", [], [], none, "20Gi"⟩) none = []) :=
  ⟨pvc_storage_size_precedence.1 _ _ rfl rfl,
   pvc_storage_size_precedence.2.1 _ ⟨"", "run", [], [], none, "20Gi"⟩ none rfl,
   pvc_storage_size_precedence.2.2.2.2 _ _ none rfl⟩

theorem interpolateArgs_error_of_bad_arg
    (args : List String) (config : List (String × String))
    (h : ∃ a ∈ args, ∃ e, interpolateString a config = .error e) :
    ∃ e, interpolateArgs args config = .error e := by
  induction args with
  | nil => simp at h
  | cons a rest ih =>
    obtain ⟨a', ha', e, he⟩ := h
    rcases List.mem_cons.mp ha' with rfl | hmem
    · exact ⟨e, by simp [interpolateArgs, he]⟩
    · cases hc : interpolateString a config with
      | error e2 => exact ⟨e2, by simp [interpolateArgs, hc]⟩
      | ok v =>
        obtain ⟨e3, h3⟩ := ih ⟨a', hmem, e, he⟩
        exact ⟨e3, by simp [interpolateArgs, hc, h3]⟩

/-- C1 (counterexample): with the malformed argument template
`\x7b\x7b.Config.port` (unclosed action) the render call itself fails, but
the StatefulSet builder's `getInterpolatedArgs` swallows the error and
returns the raw unrendered template string as the container args. -/
theorem malformed_template_raw_fallback_counterexample :
    interpolateArgs ["\x7b\x7b.Config.port"] [] =
      .error "failed to parse template: unclosed action" ∧
    getInterpolatedArgs ["\x7b\x7b.Config.port"] [] =
      ["\x7b\x7b.Config.port"] := by
  constructor
  · simp [interpolateArgs, interpolateString, renderChars, splitAction]
  · simp [getInterpolatedArgs, interpolateArgs, interpolateString,
      renderChars, splitAction]

/-- C1 (amended): a malformed template is a hard failure for the render
call itself — `InterpolateArgs` returns an error and no argument list —
but its StatefulSet-builder caller `getInterpolatedArgs` catches that
error and silently falls back to the raw unrendered template strings. -/
theorem malformed_template_hard_failure_with_builder_fallback :
    ∀ (args : List String) (config : List (String × String)),
      (∃ a ∈ args, ∃ e, interpolateString a config = .error e) →
      (∃ e, interpolateArgs args config = .error e) ∧
      getInterpolatedArgs args config = args := by
  intro args config h
  obtain ⟨e, he⟩ := interpolateArgs_error_of_bad_arg args config h
  refine ⟨⟨e, he⟩, ?_⟩
  have hne : args ≠ [] := by
    rintro rfl
    simp at h
  simp [getInterpolatedArgs, hne, he]

/-- Witness for `malformed_template_hard_failure_with_builder_fallback` at
a concrete malformed argument list. -/
theorem malformed_template_hard_failure_witness :
    (∃ e, interpolateArgs ["ok", "\x7b\x7bbad"] [("k", "v")] = .error e) ∧
    getInterpolatedArgs ["ok", "\x7b\x7bbad"] [("k", "v")] =
      ["ok", "\x7b\x7bbad"] :=
  malformed_template_hard_failure_with_builder_fallback
    ["ok", "\x7b\x7bbad"] [("k", "v")]
    ⟨"\x7b\x7bbad", by simp, "failed to parse template: unclosed action",
      by simp [interpolateString, renderChars, splitAction]⟩

theorem zip_self_ports_all (l : List PortStatus) :
    ((l.zip l).all fun xy =>
      xy.1.name = xy.2.name ∧ xy.1.port = xy.2.port ∧
        xy.1.protocol = xy.2.protocol) = true := by
  induction l with
  | nil => rfl
  | cons a t ih =>
    simp only [List.zip_cons_cons, List.all_cons, ih, Bool.and_true]
    simp

theorem portsEqual_refl (l : List PortStatus) : portsEqual l l = true := by
  rw [portsEqual, if_neg (by simp)]
  exact zip_self_ports_all l

theorem buildPVC_labels {server : SteamServer} {gameDef : Option GameDefSpec}
    {d : PVC} (h : buildPVC server gameDef = some d) :
    d.labels = pvcLabels server := by
  rw [buildPVC] at h
  split at h
  · exact absurd h (Option.noConfusion)
  · cases h
    rfl

/-- C2 (counterexample): a reconcile pass over an instance whose four
artifacts and status already match the synthesized state still issues
writes — the StatefulSet and Service updates are unconditional — so the
pass does not perform zero writes. -/
theorem reconcile_unchanged_still_writes_counterexample :
    reconcilePassWrites
      { name := "srv", onamespace := "ns", gameDefinition := "valheim",
        game := "valheim", config := [], configFiles := [], image := "",
        command := [], args := [], env := [], storage := none }
      none none
      (some
        { name := "srv-data", onamespace := "ns",
          labels := [("app.kubernetes.io/name", "steamserver"),
            ("app.kubernetes.io/instance", "srv"),
            ("app.kubernetes.io/managed-by", "boilerr"),
            ("boilerr.dev/game", "valheim")],
          requestStorage := ⟨21474836480⟩, storageClassName := none })
      () (some ()) () (some ())
      ⟨.pending, "", []⟩ .pending "" [] =
      [.updateSTS, .updateSVC] ∧
    ([WriteOp.updateSTS, WriteOp.updateSVC] : List WriteOp) ≠ [] := by
  constructor
  · rfl
  · simp

/-- C2 (amended): re-running the full reconcile pass on an unchanged spec
performs zero ConfigMap writes, zero PVC writes, and zero status writes,
but still issues one unconditional StatefulSet update and one unconditional
Service update. -/
theorem reconcile_unchanged_writes_only_sts_svc :
    ∀ {σ τ : Type} (server : SteamServer) (gameDef : Option GameDefSpec)
      (eSTS : σ) (eSVC : τ) (st : StatusSnapshot) (newState : ServerState)
      (newAddress : String) (newPorts : List PortStatus),
      st.state = newState → st.address = newAddress → st.ports = newPorts →
      reconcilePassWrites server gameDef
        (if server.configFiles = [] then none
          else some ⟨commonLabels server.name server.gameDefinition,
            configMapData server.configFiles⟩)
        (buildPVC server gameDef) eSTS (some eSTS) eSVC (some eSVC)
        st newState newAddress newPorts = [.updateSTS, .updateSVC] := by
  intro σ τ server gameDef eSTS eSVC st newState newAddress newPorts h1 h2 h3
  rw [reconcilePassWrites]
  have hcm : reconcileConfigMapWrites server
      (if server.configFiles = [] then none
        else some ⟨commonLabels server.name server.gameDefinition,
          configMapData server.configFiles⟩) = [] := by
    by_cases hcf : server.configFiles = []
    · simp [reconcileConfigMapWrites, hcf]
    · simp [reconcileConfigMapWrites, hcf]
  have hpvc : reconcilePVCWrites server gameDef (buildPVC server gameDef) = [] := by
    cases hb : buildPVC server gameDef with
    | none => simp [reconcilePVCWrites, hb]
    | some d =>
      have hl := buildPVC_labels hb
      have hself : hasLabels d.labels d.labels = true := by
        rw [hl]
        simp [hasLabels, pvcLabels, lookupKey]
      simp [reconcilePVCWrites, hb, hself]
  have hst : updateStatusWrites st newState newAddress newPorts = [] := by
    simp [updateStatusWrites, h1, h2, h3, portsEqual_refl]
  rw [hcm, hpvc, hst]
  rfl

/-- Witness for `reconcile_unchanged_writes_only_sts_svc` at a concrete
unchanged instance. -/
theorem reconcile_unchanged_writes_only_sts_svc_witness :
    reconcilePassWrites
      { name := "srv", onamespace := "ns", gameDefinition := "valheim",
        game := "valheim", config := [], configFiles := [], image := "",
        command := [], args := [], env := [], storage := none }
      none
      (if ([] : List ConfigFile) = [] then none
        else some ⟨commonLabels "srv" "valheim", configMapData []⟩)
      (buildPVC
        { name := "srv", onamespace := "ns", gameDefinition := "valheim",
          game := "valheim", config := [], configFiles := [], image := "",
          command := [], args := [], env := [], storage := none } none)
      () (some ()) () (some ())
      ⟨.pending, "", []⟩ .pending "" [] = [.updateSTS, .updateSVC] :=
  reconcile_unchanged_writes_only_sts_svc
    { name := "srv", onamespace := "ns", gameDefinition := "valheim",
      game := "valheim", config := [], configFiles := [], image := "",
      command := [], args := [], env := [], storage := none }
    none () () ⟨.pending, "", []⟩ .pending "" [] rfl rfl rfl

theorem scanInit_eq_none_of_no_match (l : List ContainerStatus)
    (h : ∀ cs ∈ l, cs.name ≠ InitContainerName) :
    scanInitContainers l = none := by
  induction l with
  | nil => rfl
  | cons cs rest ih =>
    have h1 : cs.name ≠ InitContainerName := h cs (by simp)
    have ih2 := ih (fun c hc => h c (List.mem_cons_of_mem cs hc))
    simp [scanInitContainers, h1, ih2]

theorem scanMain_eq_none_of_no_match (l : List ContainerStatus)
    (h : ∀ cs ∈ l, cs.name ≠ GameServerContainerName) :
    scanMainContainers l = none := by
  induction l with
  | nil => rfl
  | cons cs rest ih =>
    have h1 : cs.name ≠ GameServerContainerName := h cs (by simp)
    have ih2 := ih (fun c hc => h c (List.mem_cons_of_mem cs hc))
    simp [scanMainContainers, h1, ih2]

theorem scanInit_eq_find (l : List ContainerStatus)
    (h : (l.filter fun cs => cs.name = InitContainerName).length ≤ 1) :
    scanInitContainers l =
      (match l.find? (fun cs => cs.name = InitContainerName) with
        | some cs =>
          match cs.state with
          | .running => some .installing
          | .terminated code => if code ≠ 0 then some .error else none
          | .waiting => none
        | none => none) := by
  induction l with
  | nil => rfl
  | cons cs rest ih =>
    by_cases hn : cs.name = InitContainerName
    · have hfilter : (rest.filter fun c => decide (c.name = InitContainerName)) = [] := by
        rw [List.filter_cons_of_pos (by simp [hn])] at h
        simp only [List.length_cons] at h
        exact List.length_eq_zero.mp (by omega)
      have hrest : ∀ c ∈ rest, c.name ≠ InitContainerName := by
        intro c hc
        have := List.filter_eq_nil_iff.mp hfilter c hc
        simpa using this
      have hnone : scanInitContainers rest = none :=
        scanInit_eq_none_of_no_match rest hrest
      rw [List.find?_cons_of_pos _ (by simp [hn])]
      cases hstate : cs.state with
      | running => simp [scanInitContainers, hn, hstate]
      | waiting => simp [scanInitContainers, hn, hstate, hnone]
      | terminated code =>
        by_cases hc0 : code = 0
        · simp [scanInitContainers, hn, hstate, hc0, hnone]
        · simp [scanInitContainers, hn, hstate, hc0]
    · have hfilter : (rest.filter fun c => decide (c.name = InitContainerName)).length ≤ 1 := by
        rw [List.filter_cons_of_neg (by simp [hn])] at h
        exact h
      rw [List.find?_cons_of_neg _ (by simp [hn])]
      rw [show scanInitContainers (cs :: rest) = scanInitContainers rest from by
        simp [scanInitContainers, hn]]
      exact ih hfilter

theorem scanMain_eq_find (l : List ContainerStatus)
    (h : (l.filter fun cs => cs.name = GameServerContainerName).length ≤ 1) :
    scanMainContainers l =
      (match l.find? (fun cs => cs.name = GameServerContainerName) with
        | some cs =>
          match cs.state with
          | .running => some (if cs.ready then .running else .starting)
          | _ => none
        | none => none) := by
  induction l with
  | nil => rfl
  | cons cs rest ih =>
    by_cases hn : cs.name = GameServerContainerName
    · have hfilter : (rest.filter fun c => decide (c.name = GameServerContainerName)) = [] := by
        rw [List.filter_cons_of_pos (by simp [hn])] at h
        simp only [List.length_cons] at h
        exact List.length_eq_zero.mp (by omega)
      have hrest : ∀ c ∈ rest, c.name ≠ GameServerContainerName := by
        intro c hc
        have := List.filter_eq_nil_iff.mp hfilter c hc
        simpa using this
      have hnone : scanMainContainers rest = none :=
        scanMain_eq_none_of_no_match rest hrest
      rw [List.find?_cons_of_pos _ (by simp [hn])]
      cases hstate : cs.state with
      | running =>
        simp only [scanMainContainers, hn, if_pos rfl, hstate]
        by_cases hr : cs.ready <;> simp [hr]
      | waiting => simp [scanMainContainers, hn, hstate, hnone]
      | terminated code => simp [scanMainContainers, hn, hstate, hnone]
    · have hfilter : (rest.filter fun c => decide (c.name = GameServerContainerName)).length ≤ 1 := by
        rw [List.filter_cons_of_neg (by simp [hn])] at h
        exact h
      rw [List.find?_cons_of_neg _ (by simp [hn])]
      rw [show scanMainContainers (cs :: rest) = scanMainContainers rest from by
        simp [scanMainContainers, hn]]
      exact ih hfilter

/-- C6: the state classifier realizes the claimed deterministic priority
map — workload missing yields Pending, a non-not-found fetch error yields
Error, zero ready and zero total replicas yield Pending, pod missing or
phase Pending yields Pending, phase Running dispatches on the install
init-container (running yields Installing, non-zero termination yields
Error) and then on the main container (running and ready yields Running,
otherwise Starting), phase Failed yields Error, and any other phase yields
Pending — provided each container name occurs at most once in its status
list, as in a real pod. -/
theorem determineState_matches_priority_table :
    ∀ (stsRes : Except FetchErr StsStatus)
      (podRes : Except FetchErr PodStatus),
      (∀ pod, podRes = .ok pod →
        (pod.initContainerStatuses.filter fun cs =>
          cs.name = InitContainerName).length ≤ 1 ∧
        (pod.containerStatuses.filter fun cs =>
          cs.name = GameServerContainerName).length ≤ 1) →
      determineState stsRes podRes = claimedState stsRes podRes := by
  intro stsRes podRes h
  cases stsRes with
  | error fe => cases fe <;> rfl
  | ok sts =>
    by_cases hz : sts.readyReplicas = 0 ∧ sts.replicas = 0
    · simp [determineState, claimedState, hz]
    · cases podRes with
      | error fe =>
        cases fe <;> simp [determineState, claimedState, hz]
      | ok pod =>
        obtain ⟨hi, hm⟩ := h pod rfl
        cases hph : pod.phase with
        | pending => simp [determineState, claimedState, hz, hph]
        | succeeded => simp [determineState, claimedState, hz, hph]
        | unknown => simp [determineState, claimedState, hz, hph]
        | failed => simp [determineState, claimedState, hz, hph]
        | running =>
          simp only [determineState, claimedState, hz, hph, if_neg, ite_false]
          rw [scanInit_eq_find pod.initContainerStatuses hi,
            scanMain_eq_find pod.containerStatuses hm]
          cases hfi : pod.initContainerStatuses.find? fun cs =>
              cs.name = InitContainerName with
          | some ics =>
            cases hst : ics.state with
            | running => simp [hst]
            | waiting =>
              cases hfm : pod.containerStatuses.find? fun cs =>
                  cs.name = GameServerContainerName with
              | some mcs =>
                cases hms : mcs.state with
                | running => by_cases hr : mcs.ready <;> simp [hst, hms, hr]
                | waiting => simp [hst, hms]
                | terminated code => simp [hst, hms]
              | none => simp [hst]
            | terminated code =>
              by_cases hc0 : code = 0
              · subst hc0
                cases hfm : pod.containerStatuses.find? fun cs =>
                    cs.name = GameServerContainerName with
                | some mcs =>
                  cases hms : mcs.state with
                  | running => by_cases hr : mcs.ready <;> simp [hst, hms, hr]
                  | waiting => simp [hst, hms]
                  | terminated code2 => simp [hst, hms]
                | none => simp [hst]
              · simp [hst, hc0]
          | none =>
            cases hfm : pod.containerStatuses.find? fun cs =>
                cs.name = GameServerContainerName with
            | some mcs =>
              cases hms : mcs.state with
              | running => by_cases hr : mcs.ready <;> simp [hms, hr]
              | waiting => simp [hms]
              | terminated code => simp [hms]
            | none => simp

/-- Witness for `determineState_matches_priority_table` at a concrete
running pod whose install container terminated cleanly and whose main
container is running and ready. -/
theorem determineState_matches_priority_table_witness :
    determineState (.ok ⟨1, 1⟩)
      (.ok ⟨.running, [⟨"steamcmd", .terminated 0, false⟩],
        [⟨"gameserver", .running, true⟩]⟩) =
    claimedState (.ok ⟨1, 1⟩)
      (.ok ⟨.running, [⟨"steamcmd", .terminated 0, false⟩],
        [⟨"gameserver", .running, true⟩]⟩) :=
  determineState_matches_priority_table (.ok ⟨1, 1⟩)
    (.ok ⟨.running, [⟨"steamcmd", .terminated 0, false⟩],
      [⟨"gameserver", .running, true⟩]⟩)
    (fun pod hp => by cases hp; exact ⟨by decide, by decide⟩)

theorem lookupKey_append {α : Type} (l1 l2 : List (String × α)) (k : String) :
    lookupKey (l1 ++ l2) k =
      (match lookupKey l1 k with
        | some v => some v
        | none => lookupKey l2 k) := by
  induction l1 with
  | nil => rfl
  | cons kv rest ih =>
    by_cases hk : kv.1 = k
    · simp [lookupKey, hk]
    · simp only [List.cons_append, lookupKey, hk, if_neg]
      exact ih

theorem findNameIdx_set_preserve (l : List EnvVar) (idx : Nat) (env : EnvVar)
    (h : findNameIdx l env.name = some idx) (n : String) :
    findNameIdx (l.set idx env) n = findNameIdx l n := by
  induction l generalizing idx with
  | nil => simp [findNameIdx] at h
  | cons a t ih =>
    by_cases ha : a.name = env.name
    · rw [findNameIdx, if_pos ha] at h
      cases h
      by_cases hn : a.name = n
      · simp [List.set, findNameIdx, hn, ha ▸ hn]
      · have : env.name ≠ n := fun hc => hn (ha.trans hc)
        simp [List.set, findNameIdx, hn, this]
    · rw [findNameIdx, if_neg ha] at h
      cases hidx : findNameIdx t env.name with
      | none => rw [hidx] at h; simp at h
      | some j =>
        rw [hidx] at h
        simp only [Option.map_some'] at h
        cases h
        by_cases hn : a.name = n
        · simp [List.set, findNameIdx, hn]
        · simp [List.set, findNameIdx, hn, ih j hidx]

theorem findNameIdx_append_single (l : List EnvVar) (env : EnvVar)
    (n : String) :
    findNameIdx (l ++ [env]) n =
      (match findNameIdx l n with
        | some i => some i
        | none => if env.name = n then some l.length else none) := by
  induction l with
  | nil => simp [findNameIdx]
  | cons a t ih =>
    by_cases hn : a.name = n
    · simp [findNameIdx, hn]
    · rw [List.cons_append, findNameIdx, if_neg hn, ih, findNameIdx, if_neg hn]
      cases hidx : findNameIdx t n with
      | some j => simp
      | none =>
        by_cases he : env.name = n <;> simp [he]
theorem mergeFold_spec (envs : List EnvVar) (seen : List (String × Nat))
    (result : List EnvVar)
    (hinv : ∀ n, lookupKey seen n = findNameIdx result n) :
    (envs.foldl mergeStep (seen, result)).2 =
      envs.foldl mergeSpecStep result ∧
    (∀ n, lookupKey (envs.foldl mergeStep (seen, result)).1 n =
      findNameIdx (envs.foldl mergeStep (seen, result)).2 n) := by
  induction envs generalizing seen result with
  | nil => exact ⟨rfl, hinv⟩
  | cons env rest ih =>
    cases hidx : lookupIdx seen env.name with
    | some idx =>
      have hfind : findNameIdx result env.name = some idx :=
        (hinv env.name).symm.trans hidx
      have hstep : mergeStep (seen, result) env = (seen, result.set idx env) := by
        simp [mergeStep, hidx]
      have hspec : mergeSpecStep result env = result.set idx env := by
        simp [mergeSpecStep, hfind]
      have hinv' : ∀ n, lookupKey seen n = findNameIdx (result.set idx env) n := by
        intro n
        rw [findNameIdx_set_preserve result idx env hfind n]
        exact hinv n
      simp only [List.foldl_cons, hstep, hspec]
      exact ih _ _ hinv'
    | none =>
      have hfind : findNameIdx result env.name = none :=
        (hinv env.name).symm.trans hidx
      have hstep : mergeStep (seen, result) env =
          (seen ++ [(env.name, result.length)], result ++ [env]) := by
        simp [mergeStep, hidx]
      have hspec : mergeSpecStep result env = result ++ [env] := by
        simp [mergeSpecStep, hfind]
      have hinv' : ∀ n, lookupKey (seen ++ [(env.name, result.length)]) n =
          findNameIdx (result ++ [env]) n := by
        intro n
        rw [lookupKey_append, findNameIdx_append_single]
        cases hn : lookupKey seen n with
        | some v => rw [(hinv n).symm.trans hn]
        | none =>
          rw [(hinv n).symm.trans hn]
          simp [lookupKey]
      simp only [List.foldl_cons, hstep, hspec]
      exact ih _ _ hinv'

theorem mergeEnvVars_eq_mergeSpec (envSlices : List (List EnvVar)) :
    mergeEnvVars envSlices = mergeSpec envSlices := by
  rw [mergeEnvVars, mergeSpec]
  have main : ∀ (slices : List (List EnvVar)) (seen : List (String × Nat))
      (result : List EnvVar),
      (∀ n, lookupKey seen n = findNameIdx result n) →
      (slices.foldl (fun acc envs => envs.foldl mergeStep acc)
        (seen, result)).2 = slices.flatten.foldl mergeSpecStep result := by
    intro slices
    induction slices with
    | nil => intro seen result _; rfl
    | cons s rest ih =>
      intro seen result hinv
      obtain ⟨heq, hinv'⟩ := mergeFold_spec s seen result hinv
      simp only [List.foldl_cons, List.flatten_cons, List.foldl_append]
      rw [← heq]
      exact ih _ _ hinv'
  exact main envSlices [] [] (fun n => rfl)

/-- C7: merging env-var layers (template defaults, then instance entries,
then secret-binding entries) is a name-keyed union — a later layer's entry
replaces an earlier entry with the same name in place, anything else is
appended in first-seen order — and on the example layers
[A=1, B=2] and [B=override, C=3] it yields A=1, B=override, C=3 in that
order. -/
theorem mergeEnvVars_name_keyed_union :
    (∀ gameDefEnv serverEnv configEnv : List EnvVar,
      buildMainEnvVars (some gameDefEnv) serverEnv configEnv =
        [gameDefEnv, serverEnv, configEnv].flatten.foldl mergeSpecStep []) ∧
    (∀ envSlices : List (List EnvVar),
      mergeEnvVars envSlices = mergeSpec envSlices) ∧
    mergeEnvVars
      [[⟨"A", "1", none⟩, ⟨"B", "2", none⟩],
       [⟨"B", "override", none⟩, ⟨"C", "3", none⟩]] =
      [⟨"A", "1", none⟩, ⟨"B", "override", none⟩, ⟨"C", "3", none⟩] :=
  ⟨fun g s c => mergeEnvVars_eq_mergeSpec [g, s, c],
   mergeEnvVars_eq_mergeSpec, rfl⟩

theorem lookupKey_eq_none_iff {α : Type} (l : List (String × α)) (k : String) :
    lookupKey l k = none ↔ k ∉ keysOf l := by
  induction l with
  | nil => simp [lookupKey, keysOf]
  | cons kv rest ih =>
    by_cases hk : kv.1 = k
    · simp [lookupKey, hk, keysOf]
    · have hk' : k ≠ kv.1 := fun hc => hk hc.symm
      rw [lookupKey, if_neg hk, ih]
      simp [keysOf, not_or, hk']

theorem mem_of_lookupKey {α : Type} {l : List (String × α)} {k : String}
    {v : α} (h : lookupKey l k = some v) : (k, v) ∈ l := by
  induction l with
  | nil => simp [lookupKey] at h
  | cons kv rest ih =>
    by_cases hk : kv.1 = k
    · rw [lookupKey, if_pos hk] at h
      cases h
      subst hk
      exact List.mem_cons_self _ _
    · rw [lookupKey, if_neg hk] at h
      exact List.mem_cons_of_mem _ (ih h)

theorem lookupKey_of_mem_nodup {α : Type} {l : List (String × α)}
    {k : String} {v : α} (hnd : (keysOf l).Nodup) (hm : (k, v) ∈ l) :
    lookupKey l k = some v := by
  induction l with
  | nil => simp at hm
  | cons kv rest ih =>
    rcases List.mem_cons.mp hm with rfl | hmem
    · simp [lookupKey]
    · have hk : kv.1 ≠ k := by
        intro hc
        have : k ∈ keysOf rest := List.mem_map_of_mem Prod.fst hmem
        rw [keysOf, List.map_cons] at hnd
        exact (List.nodup_cons.mp hnd).1 (hc ▸ this)
      rw [lookupKey, if_neg hk]
      exact ih (List.nodup_cons.mp (by rwa [keysOf, List.map_cons] at hnd)).2 hmem

theorem lookupKey_upsertVal (l : List (String × String)) (k v k' : String) :
    lookupKey (upsertVal l k v) k' =
      if k = k' then some v else lookupKey l k' := by
  induction l with
  | nil => simp [upsertVal, lookupKey]
  | cons kv rest ih =>
    obtain ⟨k0, v0⟩ := kv
    by_cases hk : k0 = k
    · subst hk
      by_cases hk' : k0 = k'
      · subst hk'
        simp [upsertVal, lookupKey]
      · simp [upsertVal, lookupKey, hk']
    · by_cases hkk' : k0 = k'
      · subst hkk'
        have hkne : k ≠ k0 := fun hc => hk hc.symm
        simp [upsertVal, hk, lookupKey, hkne]
      · simp [upsertVal, hk, lookupKey, hkk', ih]

theorem lookupKey_seedDefaults (schema : List (String × ConfigSchemaEntry))
    (hnd : (keysOf schema).Nodup) (k : String) :
    lookupKey (seedDefaults schema) k =
      (match lookupKey schema k with
        | some e => if e.default = "" then none else some e.default
        | none => none) := by
  induction schema with
  | nil => rfl
  | cons ke rest ih =>
    obtain ⟨k0, e0⟩ := ke
    have hnd' : (keysOf rest).Nodup :=
      (List.nodup_cons.mp (by rwa [keysOf, List.map_cons] at hnd)).2
    have hnotin : k0 ∉ keysOf rest :=
      (List.nodup_cons.mp (by rwa [keysOf, List.map_cons] at hnd)).1
    by_cases hk : k0 = k
    · subst hk
      have hnone : lookupKey rest k0 = none :=
        (lookupKey_eq_none_iff rest k0).mpr hnotin
      by_cases hd : e0.default = ""
      · have : lookupKey (seedDefaults rest) k0 = none := by
          rw [ih hnd', hnone]
        simp [seedDefaults, hd, lookupKey, this]
      · simp [seedDefaults, hd, lookupKey]
    · by_cases hd : e0.default = ""
      · simp [seedDefaults, hd, lookupKey, hk, ih hnd']
      · simp [seedDefaults, hd, lookupKey, hk, ih hnd']

/-- Value stored in the resolved map for a user-supplied entry: the secret
placeholder for a secret-backed entry, the literal otherwise. -/
def resolvedUserVal (k : String) (cv : ConfigValue) : String :=
  match cv.secretKeyRef with
  | some _ => "$(" ++ configEnvName k ++ ")"
  | none => cv.value

theorem applyUserConfig_lookup (config : List (String × ConfigValue))
    (hnd : (keysOf config).Nodup) (values : List (String × String))
    (k : String) :
    lookupKey (applyUserConfig values config).1 k =
      (match lookupKey config k with
        | some cv => some (resolvedUserVal k cv)
        | none => lookupKey values k) := by
  induction config generalizing values with
  | nil => rfl
  | cons kcv rest ih =>
    obtain ⟨k0, cv0⟩ := kcv
    have hnd' : (keysOf rest).Nodup :=
      (List.nodup_cons.mp (by rwa [keysOf, List.map_cons] at hnd)).2
    have hnotin : k0 ∉ keysOf rest :=
      (List.nodup_cons.mp (by rwa [keysOf, List.map_cons] at hnd)).1
    have hstep : (applyUserConfig values ((k0, cv0) :: rest)).1 =
        (applyUserConfig (upsertVal values k0 (resolvedUserVal k0 cv0)) rest).1 := by
      cases hrf : cv0.secretKeyRef with
      | some ref => simp [applyUserConfig, hrf, resolvedUserVal]
      | none => simp [applyUserConfig, hrf, resolvedUserVal]
    rw [hstep, ih hnd' (upsertVal values k0 (resolvedUserVal k0 cv0))]
    by_cases hk : k0 = k
    · subst hk
      have hnone : lookupKey rest k0 = none :=
        (lookupKey_eq_none_iff rest k0).mpr hnotin
      rw [hnone, lookupKey_upsertVal, if_pos rfl]
      simp [lookupKey]
    · rw [lookupKey, if_neg hk, lookupKey_upsertVal, if_neg hk]

theorem applyUserConfig_env (config : List (String × ConfigValue))
    (values : List (String × String)) :
    (applyUserConfig values config).2 =
      config.filterMap fun kcv =>
        kcv.2.secretKeyRef.map fun ref => secretEnvVar kcv.1 ref := by
  induction config generalizing values with
  | nil => rfl
  | cons kcv rest ih =>
    obtain ⟨k0, cv0⟩ := kcv
    cases hrf : cv0.secretKeyRef with
    | some ref => simp [applyUserConfig, hrf, List.filterMap_cons, ih]
    | none => simp [applyUserConfig, hrf, List.filterMap_cons, ih]

theorem filterMap_secret_names (config : List (String × ConfigValue)) :
    ((config.filterMap fun kcv =>
        kcv.2.secretKeyRef.map fun ref => secretEnvVar kcv.1 ref).map
      EnvVar.name) =
      (config.filter fun kcv => kcv.2.secretKeyRef.isSome).map
        fun kcv => configEnvName kcv.1 := by
  induction config with
  | nil => rfl
  | cons kcv rest ih =>
    cases hrf : kcv.2.secretKeyRef with
    | some ref =>
      simp only [secretEnvVar] at ih ⊢
      simp [List.filterMap_cons, hrf, List.filter_cons, ih]
    | none => simp [List.filterMap_cons, hrf, List.filter_cons, ih]

/-- C5: ResolveConfigValues seeds the value map from the schema's non-empty
defaults and overwrites with every user entry (user wins); a secret-backed
entry contributes an env binding named `CONFIG_` + uppercased key with
hyphens turned to underscores and maps the key to the placeholder
`$(<binding name>)`; a literal entry maps the key to its literal; the env
bindings are exactly the secret-backed entries in order. -/
theorem resolveConfigValues_seeds_defaults_user_wins :
    ∀ (config : List (String × ConfigValue))
      (schema : List (String × ConfigSchemaEntry)),
      (keysOf config).Nodup → (keysOf schema).Nodup →
      (∀ k, lookupKey (resolveConfigValues config schema).1 k =
        (match lookupKey config k with
          | some cv =>
            (match cv.secretKeyRef with
              | some _ => some ("$(" ++ configEnvName k ++ ")")
              | none => some cv.value)
          | none =>
            (match lookupKey schema k with
              | some e => if e.default = "" then none else some e.default
              | none => none))) ∧
      (resolveConfigValues config schema).2 =
        (config.filterMap fun kcv =>
          kcv.2.secretKeyRef.map fun ref => secretEnvVar kcv.1 ref) ∧
      ((resolveConfigValues config schema).2.map EnvVar.name =
        (config.filter fun kcv => kcv.2.secretKeyRef.isSome).map
          fun kcv => configEnvName kcv.1) := by
  intro config schema hc hs
  refine ⟨?_, ?_, ?_⟩
  · intro k
    rw [resolveConfigValues, applyUserConfig_lookup config hc _ k]
    cases hcv : lookupKey config k with
    | some cv =>
      cases hrf : cv.secretKeyRef <;> simp [resolvedUserVal, hrf]
    | none => rw [lookupKey_seedDefaults schema hs k]
  · exact applyUserConfig_env config _
  · rw [resolveConfigValues, applyUserConfig_env config _]
    exact filterMap_secret_names config

/-- Witness for `resolveConfigValues_seeds_defaults_user_wins` at a
concrete config/schema pair with one literal, one secret-backed entry, and
one defaulted schema key. -/
theorem resolveConfigValues_seeds_defaults_user_wins_witness :
    lookupKey (resolveConfigValues
      [("server-name", ⟨"Vikings", none⟩),
       ("server-pass", ⟨"", some ⟨"sec", "pw"⟩⟩)]
      [("port", ⟨"2456", false, []⟩),
       ("server-pass", ⟨"", true, []⟩)]).1 "server-pass" =
      some "$(CONFIG_SERVER_PASS)" ∧
    lookupKey (resolveConfigValues
      [("server-name", ⟨"Vikings", none⟩),
       ("server-pass", ⟨"", some ⟨"sec", "pw"⟩⟩)]
      [("port", ⟨"2456", false, []⟩),
       ("server-pass", ⟨"", true, []⟩)]).1 "port" = some "2456" ∧
    lookupKey (resolveConfigValues
      [("server-name", ⟨"Vikings", none⟩),
       ("server-pass", ⟨"", some ⟨"sec", "pw"⟩⟩)]
      [("port", ⟨"2456", false, []⟩),
       ("server-pass", ⟨"", true, []⟩)]).1 "server-name" =
      some "Vikings" ∧
    (resolveConfigValues
      [("server-name", ⟨"Vikings", none⟩),
       ("server-pass", ⟨"", some ⟨"sec", "pw"⟩⟩)]
      [("port", ⟨"2456", false, []⟩),
       ("server-pass", ⟨"", true, []⟩)]).2 =
      [⟨"CONFIG_SERVER_PASS", "", some ⟨"sec", "pw"⟩⟩] := by
  have h := resolveConfigValues_seeds_defaults_user_wins
    [("server-name", ⟨"Vikings", none⟩),
     ("server-pass", ⟨"", some ⟨"sec", "pw"⟩⟩)]
    [("port", ⟨"2456", false, []⟩),
     ("server-pass", ⟨"", true, []⟩)]
    (by decide) (by decide)
  refine ⟨(h.1 "server-pass").trans rfl,
    (h.1 "port").trans rfl,
    (h.1 "server-name").trans rfl,
    h.2.1.trans rfl⟩

/-- Claimed violation (1): a schema key marked required is absent from the
user config or present with an empty literal and no secret reference. -/
def requiredViolationAt (config : List (String × ConfigValue))
    (schema : List (String × ConfigSchemaEntry)) (k : String) : Prop :=
  ∃ e, lookupKey schema k = some e ∧ e.required = true ∧
    (lookupKey config k = none ∨
      ∃ cv, lookupKey config k = some cv ∧ cv.value = "" ∧
        cv.secretKeyRef = none)

/-- Claimed violation (2): a user config key is absent from the schema. -/
def unknownViolationAt (config : List (String × ConfigValue))
    (schema : List (String × ConfigSchemaEntry)) (k : String) : Prop :=
  (∃ cv, lookupKey config k = some cv) ∧ lookupKey schema k = none

/-- Claimed violation (3): an enum-constrained key carries a non-empty
literal outside its declared enum (a purely secret-backed value has an
empty literal and so bypasses this check). -/
def enumViolationAt (config : List (String × ConfigValue))
    (schema : List (String × ConfigSchemaEntry)) (k : String) : Prop :=
  ∃ cv, lookupKey config k = some cv ∧
    ((lookupKey schema k).getD ⟨"", false, []⟩).enum ≠ [] ∧
    cv.value ≠ "" ∧
    cv.value ∉ ((lookupKey schema k).getD ⟨"", false, []⟩).enum

theorem checkRequired_some_aux (config : List (String × ConfigValue))
    (l : List (String × ConfigSchemaEntry)) (e : ValidationError)
    (h : checkRequired config l = some e) :
    ∃ entry, (e.key, entry) ∈ l ∧ entry.required = true ∧
      (lookupKey config e.key = none ∨
        ∃ cv, lookupKey config e.key = some cv ∧ cv.value = "" ∧
          cv.secretKeyRef = none) := by
  induction l with
  | nil => simp [checkRequired] at h
  | cons ke rest ih =>
    obtain ⟨k0, e0⟩ := ke
    by_cases hr : e0.required
    · cases hcv : lookupKey config k0 with
      | none =>
        rw [checkRequired, if_pos hr, hcv] at h
        cases h
        exact ⟨e0, List.mem_cons_self _ _, hr, Or.inl hcv⟩
      | some cv =>
        by_cases he : cv.value = "" ∧ cv.secretKeyRef = none
        · rw [checkRequired, if_pos hr, hcv] at h
          simp only [if_pos he] at h
          cases h
          exact ⟨e0, List.mem_cons_self _ _, hr,
            Or.inr ⟨cv, hcv, he.1, he.2⟩⟩
        · rw [checkRequired, if_pos hr, hcv] at h
          simp only [if_neg he] at h
          obtain ⟨entry, hm, hq, hd⟩ := ih h
          exact ⟨entry, List.mem_cons_of_mem _ hm, hq, hd⟩
    · rw [checkRequired, if_neg hr] at h
      obtain ⟨entry, hm, hq, hd⟩ := ih h
      exact ⟨entry, List.mem_cons_of_mem _ hm, hq, hd⟩

theorem checkRequired_none_aux (config : List (String × ConfigValue))
    (l : List (String × ConfigSchemaEntry))
    (h : checkRequired config l = none) :
    ∀ k entry, (k, entry) ∈ l → entry.required = true →
      ∃ cv, lookupKey config k = some cv ∧
        ¬(cv.value = "" ∧ cv.secretKeyRef = none) := by
  induction l with
  | nil => intro k entry hm; simp at hm
  | cons ke rest ih =>
    obtain ⟨k0, e0⟩ := ke
    intro k entry hm hq
    by_cases hr : e0.required
    · cases hcv : lookupKey config k0 with
      | none => rw [checkRequired, if_pos hr, hcv] at h; cases h
      | some cv =>
        by_cases he : cv.value = "" ∧ cv.secretKeyRef = none
        · rw [checkRequired, if_pos hr, hcv] at h
          simp only [if_pos he] at h
          cases h
        · rw [checkRequired, if_pos hr, hcv] at h
          simp only [if_neg he] at h
          rcases List.mem_cons.mp hm with hhead | htail
          · cases hhead
            exact ⟨cv, hcv, he⟩
          · exact ih h k entry htail hq
    · rw [checkRequired, if_neg hr] at h
      rcases List.mem_cons.mp hm with hhead | htail
      · cases hhead
        exact absurd hq (by simpa using hr)
      · exact ih h k entry htail hq

theorem checkUnknown_some_aux (schema : List (String × ConfigSchemaEntry))
    (l : List (String × ConfigValue)) (e : ValidationError)
    (h : checkUnknown schema l = some e) :
    e.kind = .unknownKey ∧
      ∃ cv, (e.key, cv) ∈ l ∧ lookupKey schema e.key = none := by
  induction l with
  | nil => simp [checkUnknown] at h
  | cons kcv rest ih =>
    obtain ⟨k0, cv0⟩ := kcv
    cases hs : lookupKey schema k0 with
    | none =>
      rw [checkUnknown, hs] at h
      cases h
      exact ⟨rfl, cv0, List.mem_cons_self _ _, hs⟩
    | some s0 =>
      rw [checkUnknown, hs] at h
      obtain ⟨hk, cv, hm, hn⟩ := ih h
      exact ⟨hk, cv, List.mem_cons_of_mem _ hm, hn⟩

theorem checkUnknown_none_aux (schema : List (String × ConfigSchemaEntry))
    (l : List (String × ConfigValue)) (h : checkUnknown schema l = none) :
    ∀ kcv ∈ l, ∃ s, lookupKey schema kcv.1 = some s := by
  induction l with
  | nil => intro kcv hm; simp at hm
  | cons kcv0 rest ih =>
    obtain ⟨k0, cv0⟩ := kcv0
    intro kcv hm
    cases hs : lookupKey schema k0 with
    | none => rw [checkUnknown, hs] at h; cases h
    | some s0 =>
      rw [checkUnknown, hs] at h
      rcases List.mem_cons.mp hm with hhead | htail
      · cases hhead
        exact ⟨s0, hs⟩
      · exact ih h kcv htail

theorem checkEnum_some_aux (schema : List (String × ConfigSchemaEntry))
    (l : List (String × ConfigValue)) (e : ValidationError)
    (h : checkEnum schema l = some e) :
    e.kind = .enumViolation ∧
      ∃ cv, (e.key, cv) ∈ l ∧
        ((lookupKey schema e.key).getD ⟨"", false, []⟩).enum ≠ [] ∧
        cv.value ≠ "" ∧
        cv.value ∉ ((lookupKey schema e.key).getD ⟨"", false, []⟩).enum := by
  induction l with
  | nil => simp [checkEnum] at h
  | cons kcv rest ih =>
    obtain ⟨k0, cv0⟩ := kcv
    by_cases hc : ((lookupKey schema k0).getD ⟨"", false, []⟩).enum ≠ [] ∧
        cv0.value ≠ "" ∧
        cv0.value ∉ ((lookupKey schema k0).getD ⟨"", false, []⟩).enum
    · rw [checkEnum.eq_def] at h
      simp only [if_pos hc] at h
      cases h
      exact ⟨rfl, cv0, List.mem_cons_self _ _, hc.1, hc.2.1, hc.2.2⟩
    · rw [checkEnum.eq_def] at h
      simp only [if_neg hc] at h
      obtain ⟨hk, cv, hm, hd⟩ := ih h
      exact ⟨hk, cv, List.mem_cons_of_mem _ hm, hd⟩

theorem checkEnum_none_aux (schema : List (String × ConfigSchemaEntry))
    (l : List (String × ConfigValue)) (h : checkEnum schema l = none) :
    ∀ kcv ∈ l,
      ¬(((lookupKey schema kcv.1).getD ⟨"", false, []⟩).enum ≠ [] ∧
        kcv.2.value ≠ "" ∧
        kcv.2.value ∉ ((lookupKey schema kcv.1).getD ⟨"", false, []⟩).enum) := by
  induction l with
  | nil => intro kcv hm; simp at hm
  | cons kcv0 rest ih =>
    obtain ⟨k0, cv0⟩ := kcv0
    intro kcv hm
    by_cases hc : ((lookupKey schema k0).getD ⟨"", false, []⟩).enum ≠ [] ∧
        cv0.value ≠ "" ∧
        cv0.value ∉ ((lookupKey schema k0).getD ⟨"", false, []⟩).enum
    · rw [checkEnum.eq_def] at h
      simp only [if_pos hc] at h
      cases h
    · rw [checkEnum.eq_def] at h
      simp only [if_neg hc] at h
      rcases List.mem_cons.mp hm with hhead | htail
      · cases hhead
        exact hc
      · exact ih h kcv htail

/-- C4: ValidateConfig returns an error iff a required key is missing or
empty, a config key is unknown to the schema, or an enum-constrained key
carries a non-empty literal outside its enum (purely secret-backed values
bypass the enum check), and the returned error names an offending key. -/
theorem validateConfig_error_iff :
    ∀ (config : List (String × ConfigValue))
      (schema : List (String × ConfigSchemaEntry)),
      (keysOf config).Nodup → (keysOf schema).Nodup →
      ((validateConfig config schema).isSome ↔
        ∃ k, requiredViolationAt config schema k ∨
          unknownViolationAt config schema k ∨
          enumViolationAt config schema k) ∧
      (∀ e, validateConfig config schema = some e →
        requiredViolationAt config schema e.key ∨
        unknownViolationAt config schema e.key ∨
        enumViolationAt config schema e.key) ∧
      (∀ k cv, lookupKey config k = some cv → cv.value = "" →
        ¬ enumViolationAt config schema k) := by
  intro config schema hc hs
  have keyPart : ∀ e, validateConfig config schema = some e →
      requiredViolationAt config schema e.key ∨
      unknownViolationAt config schema e.key ∨
      enumViolationAt config schema e.key := by
    intro e he
    rw [validateConfig] at he
    cases h1 : checkRequired config schema with
    | some e1 =>
      rw [h1] at he
      cases he
      obtain ⟨entry, hm, hq, hd⟩ := checkRequired_some_aux config schema e h1
      exact Or.inl ⟨entry, lookupKey_of_mem_nodup hs hm, hq, hd⟩
    | none =>
      rw [h1] at he
      cases h2 : checkUnknown schema config with
      | some e2 =>
        rw [h2] at he
        cases he
        obtain ⟨hk, cv, hm, hn⟩ := checkUnknown_some_aux schema config e h2
        exact Or.inr (Or.inl ⟨⟨cv, lookupKey_of_mem_nodup hc hm⟩, hn⟩)
      | none =>
        rw [h2] at he
        obtain ⟨hk, cv, hm, hen, hv, hnm⟩ :=
          checkEnum_some_aux schema config e he
        exact Or.inr (Or.inr ⟨cv, lookupKey_of_mem_nodup hc hm, hen, hv, hnm⟩)
  have hnone : validateConfig config schema = none →
      checkRequired config schema = none ∧
      checkUnknown schema config = none ∧
      checkEnum schema config = none := by
    intro hv
    rw [validateConfig] at hv
    cases h1 : checkRequired config schema with
    | some e1 => rw [h1] at hv; cases hv
    | none =>
      rw [h1] at hv
      cases h2 : checkUnknown schema config with
      | some e2 => rw [h2] at hv; cases hv
      | none =>
        rw [h2] at hv
        exact ⟨rfl, rfl, hv⟩
  refine ⟨⟨?_, ?_⟩, keyPart, ?_⟩
  · intro hsome
    obtain ⟨e, he⟩ := Option.isSome_iff_exists.mp hsome
    exact ⟨e.key, keyPart e he⟩
  · rintro ⟨k, hviol⟩
    by_contra hns
    obtain ⟨h1, h2, h3⟩ := hnone (Option.not_isSome_iff_eq_none.mp hns)
    rcases hviol with ⟨entry, hsk, hq, hd⟩ | ⟨⟨cv, hcv⟩, hsn⟩ |
        ⟨cv, hcv, hen, hv, hnm⟩
    · obtain ⟨cv, hcv, hne⟩ :=
        checkRequired_none_aux config schema h1 k entry
          (mem_of_lookupKey hsk) hq
      rcases hd with hmiss | ⟨cv', hcv', hval, href⟩
      · rw [hmiss] at hcv; cases hcv
      · rw [hcv'] at hcv
        cases hcv
        exact hne ⟨hval, href⟩
    · obtain ⟨s, hss⟩ :=
        checkUnknown_none_aux schema config h2 (k, cv)
          (mem_of_lookupKey hcv)
      rw [hss] at hsn
      cases hsn
    · exact checkEnum_none_aux schema config h3 (k, cv)
        (mem_of_lookupKey hcv) ⟨hen, hv, hnm⟩
  · rintro k cv hcv hempty ⟨cv', hcv', hen, hv', hnm⟩
    rw [hcv] at hcv'
    cases hcv'
    exact hv' hempty

/-- Witness for `validateConfig_error_iff` at a concrete config carrying a
literal outside the schema's enum: the returned error names the offending
key `mode`, and a violation holds at that key. -/
theorem validateConfig_error_iff_witness :
    validateConfig [("mode", ⟨"hardcore", none⟩)]
      [("mode", ⟨"", false, ["easy", "hard"]⟩)] =
      some ⟨"mode", .enumViolation⟩ ∧
    (requiredViolationAt [("mode", ⟨"hardcore", none⟩)]
      [("mode", ⟨"", false, ["easy", "hard"]⟩)] "mode" ∨
     unknownViolationAt [("mode", ⟨"hardcore", none⟩)]
      [("mode", ⟨"", false, ["easy", "hard"]⟩)] "mode" ∨
     enumViolationAt [("mode", ⟨"hardcore", none⟩)]
      [("mode", ⟨"", false, ["easy", "hard"]⟩)] "mode") :=
  ⟨rfl,
   (validateConfig_error_iff [("mode", ⟨"hardcore", none⟩)]
      [("mode", ⟨"", false, ["easy", "hard"]⟩)]
      (by decide) (by decide)).2.1
    ⟨"mode", .enumViolation⟩ rfl⟩

/-- Whether the template opener (two consecutive opening braces) occurs,
i.e. whether the renderer recognizes any placeholder start. -/
def hasDoubleOpen : List Char → Bool
  | [] => false
  | [_] => false
  | c1 :: c2 :: rest => (c1 = '\x7b' && c2 = '\x7b') || hasDoubleOpen (c2 :: rest)

theorem hasDoubleOpen_cons_false {c : Char} {rest : List Char}
    (h : hasDoubleOpen (c :: rest) = false) : hasDoubleOpen rest = false := by
  cases rest with
  | nil => rfl
  | cons c2 l2 =>
    simp only [hasDoubleOpen, Bool.or_eq_false_iff] at h
    exact h.2

theorem renderChars_cons_ne (config : List (String × String)) (c : Char)
    (l : List Char) (hc : c ≠ '\x7b') :
    renderChars config (c :: l) =
      (match renderChars config l with
        | .ok out => .ok (c :: out)
        | .error e => .error e) := by
  cases l with
  | nil => simp [renderChars]
  | cons c2 l2 =>
    rw [renderChars]
    rw [if_neg (fun hand => hc hand.1)]

theorem renderChars_open_cons_ne (config : List (String × String))
    (c2 : Char) (l2 : List Char) (hc2 : c2 ≠ '\x7b') :
    renderChars config ('\x7b' :: c2 :: l2) =
      (match renderChars config (c2 :: l2) with
        | .ok out => .ok ('\x7b' :: out)
        | .error e => .error e) := by
  rw [renderChars]
  rw [if_neg (fun hand => hc2 hand.2)]

theorem renderChars_open_open (config : List (String × String))
    (rest : List Char) :
    renderChars config ('\x7b' :: '\x7b' :: rest) =
      (match splitAction rest with
        | none => .error "failed to parse template: unclosed action"
        | some (act, rem) =>
          match checkAction act with
          | none => .error "failed to execute template: unsupported action"
          | some key =>
            match renderChars config rem with
            | .ok out =>
              .ok ((match lookupKey config key with
                | some v => v.data
                | none => "<no value>".data) ++ out)
            | .error e => .error e) := by
  rw [renderChars]
  rw [if_pos ⟨rfl, rfl⟩]
  cases hsp : splitAction rest with
  | none => rfl
  | some p =>
    obtain ⟨act, rem⟩ := p
    cases hca : checkAction act with
    | none => rfl
    | some key => rfl

theorem renderChars_plain (config : List (String × String)) :
    ∀ cs : List Char, '\x7b' ∉ cs → renderChars config cs = .ok cs := by
  intro cs
  induction cs with
  | nil => intro _; simp [renderChars]
  | cons c rest ih =>
    intro h
    have hc : c ≠ '\x7b' := fun hcc => h (hcc ▸ List.mem_cons_self c rest)
    have ht : '\x7b' ∉ rest := fun hm => h (List.mem_cons_of_mem _ hm)
    rw [renderChars_cons_ne config c rest hc, ih ht]

theorem renderChars_noDoubleOpen (config : List (String × String)) :
    ∀ cs : List Char, hasDoubleOpen cs = false →
      renderChars config cs = .ok cs := by
  intro cs
  induction cs with
  | nil => intro _; simp [renderChars]
  | cons c rest ih =>
    intro h
    by_cases hc : c = '\x7b'
    · subst hc
      cases rest with
      | nil => simp [renderChars]
      | cons c2 l2 =>
        have hc2 : c2 ≠ '\x7b' := by
          intro hcc
          subst hcc
          simp [hasDoubleOpen] at h
        rw [renderChars_open_cons_ne config c2 l2 hc2,
          ih (hasDoubleOpen_cons_false h)]
    · rw [renderChars_cons_ne config c rest hc,
        ih (hasDoubleOpen_cons_false h)]

theorem splitAction_append (act rest : List Char) (h : '\x7d' ∉ act) :
    splitAction (act ++ '\x7d' :: '\x7d' :: rest) = some (act, rest) := by
  induction act with
  | nil => simp [splitAction]
  | cons a t ih =>
    have ha : a ≠ '\x7d' := fun hcc => h (hcc ▸ List.mem_cons_self a t)
    have ht : '\x7d' ∉ t := fun hm => h (List.mem_cons_of_mem _ hm)
    cases t with
    | nil =>
      rw [List.cons_append, List.nil_append, splitAction,
        if_neg (fun hand => ha hand.1), splitAction, if_pos ⟨rfl, rfl⟩]
      rfl
    | cons b t2 =>
      rw [List.cons_append, List.cons_append, splitAction,
        if_neg (fun hand => ha hand.1)]
      rw [show (b :: (t2 ++ '\x7d' :: '\x7d' :: rest)) =
          ((b :: t2) ++ '\x7d' :: '\x7d' :: rest) from rfl]
      rw [ih ht]
      rfl

theorem renderChars_subst (config : List (String × String))
    (pre act post : List Char) (key : String) (hpre : '\x7b' ∉ pre)
    (hact : checkAction act = some key) (hactc : '\x7d' ∉ act)
    (hpost : '\x7b' ∉ post) :
    renderChars config
        (pre ++ '\x7b' :: '\x7b' :: (act ++ '\x7d' :: '\x7d' :: post)) =
      .ok (pre ++ (match lookupKey config key with
        | some v => v.data
        | none => "<no value>".data) ++ post) := by
  induction pre with
  | nil =>
    simp only [List.nil_append]
    rw [renderChars_open_open, splitAction_append act post hactc]
    simp only [hact, renderChars_plain config post hpost]
  | cons c p ih =>
    have hc : c ≠ '\x7b' := fun hcc => hpre (hcc ▸ List.mem_cons_self c p)
    have hp : '\x7b' ∉ p := fun hm => hpre (List.mem_cons_of_mem _ hm)
    rw [List.cons_append, renderChars_cons_ne config c _ hc, ih hp]
    rfl

/-- C8: interpolation leaves a string with no recognized placeholder
opener unchanged; a `.Config.<key>` reference with the key present in the
value map substitutes the literal value exactly; a reference to an absent
key renders the fixed diagnostic placeholder `<no value>` without raising
an error. -/
theorem interpolate_placeholder_semantics :
    (∀ (s : String) (config : List (String × String)),
      hasDoubleOpen s.data = false →
      interpolateArgs [s] config = .ok [s]) ∧
    (∀ (pre key post v : String) (config : List (String × String)),
      '\x7b' ∉ pre.data → key.data ≠ [] →
      (∀ c ∈ key.data, isIdentChar c) → '\x7b' ∉ post.data →
      lookupKey config key = some v →
      interpolateArgs [pre ++ "\x7b\x7b.Config." ++ key ++ "\x7d\x7d" ++ post]
        config = .ok [pre ++ v ++ post]) ∧
    (∀ (pre key post : String) (config : List (String × String)),
      '\x7b' ∉ pre.data → key.data ≠ [] →
      (∀ c ∈ key.data, isIdentChar c) → '\x7b' ∉ post.data →
      lookupKey config key = none →
      interpolateArgs [pre ++ "\x7b\x7b.Config." ++ key ++ "\x7d\x7d" ++ post]
        config = .ok [pre ++ "<no value>" ++ post]) := by
  have hact : ∀ key : String, key.data ≠ [] →
      (∀ c ∈ key.data, isIdentChar c) →
      checkAction
        ('.' :: 'C' :: 'o' :: 'n' :: 'f' :: 'i' :: 'g' :: '.' :: key.data) =
        some key := by
    intro key hk hkc
    show (if key.data ≠ [] ∧ key.data.all isIdentChar then
      some (String.mk key.data) else none) = some key
    rw [if_pos ⟨hk, List.all_eq_true.mpr hkc⟩]
  have hnc : ∀ key : String, (∀ c ∈ key.data, isIdentChar c) →
      '\x7d' ∉
        ('.' :: 'C' :: 'o' :: 'n' :: 'f' :: 'i' :: 'g' :: '.' :: key.data) := by
    intro key hkc hm
    simp only [List.mem_cons] at hm
    rcases hm with h|h|h|h|h|h|h|h|hm
    · exact absurd h (by decide)
    · exact absurd h (by decide)
    · exact absurd h (by decide)
    · exact absurd h (by decide)
    · exact absurd h (by decide)
    · exact absurd h (by decide)
    · exact absurd h (by decide)
    · exact absurd h (by decide)
    · exact absurd (hkc _ hm) (by decide)
  have hdata : ∀ pre key post : String,
      (pre ++ "\x7b\x7b.Config." ++ key ++ "\x7d\x7d" ++ post).data =
        pre.data ++ '\x7b' :: '\x7b' ::
          (('.' :: 'C' :: 'o' :: 'n' :: 'f' :: 'i' :: 'g' :: '.' ::
            key.data) ++ '\x7d' :: '\x7d' :: post.data) := by
    intro pre key post
    show (((pre.data ++
      ('\x7b' :: '\x7b' :: '.' :: 'C' :: 'o' :: 'n' :: 'f' :: 'i' :: 'g' ::
        '.' :: [])) ++ key.data) ++ '\x7d' :: '\x7d' :: []) ++ post.data = _
    simp [List.append_assoc]
  refine ⟨?_, ?_, ?_⟩
  · intro s config h
    have hr := renderChars_noDoubleOpen config s.data h
    simp [interpolateArgs, interpolateString, hr]
  · intro pre key post v config hpre hk hkc hpost hv
    have hsub := renderChars_subst config pre.data
      ('.' :: 'C' :: 'o' :: 'n' :: 'f' :: 'i' :: 'g' :: '.' :: key.data)
      post.data key hpre (hact key hk hkc) (hnc key hkc) hpost
    rw [hv] at hsub
    simp only [interpolateArgs, interpolateString, hdata pre key post, hsub]
    rfl
  · intro pre key post config hpre hk hkc hpost hv
    have hsub := renderChars_subst config pre.data
      ('.' :: 'C' :: 'o' :: 'n' :: 'f' :: 'i' :: 'g' :: '.' :: key.data)
      post.data key hpre (hact key hk hkc) (hnc key hkc) hpost
    rw [hv] at hsub
    simp only [interpolateArgs, interpolateString, hdata pre key post, hsub]
    rfl

/-- Witness for `interpolate_placeholder_semantics` at a concrete plain
string, a present key, and an absent key. -/
theorem interpolate_placeholder_semantics_witness :
    interpolateArgs ["-port 2456"] [] = .ok ["-port 2456"] ∧
    interpolateArgs
      ["-name=" ++ "\x7b\x7b.Config." ++ "serverName" ++ "\x7d\x7d" ++ "!"]
      [("serverName", "Vikings")] = .ok ["-name=" ++ "Vikings" ++ "!"] ∧
    interpolateArgs
      ["-name=" ++ "\x7b\x7b.Config." ++ "serverName" ++ "\x7d\x7d" ++ "!"]
      [] = .ok ["-name=" ++ "<no value>" ++ "!"] :=
  ⟨interpolate_placeholder_semantics.1 "-port 2456" [] (by decide),
   interpolate_placeholder_semantics.2.1 "-name=" "serverName" "!" "Vikings"
     [("serverName", "Vikings")] (by decide) (by decide) (by decide)
     (by decide) rfl,
   interpolate_placeholder_semantics.2.2 "-name=" "serverName" "!" []
     (by decide) (by decide) (by decide) (by decide) rfl⟩
